import Mathlib

/-!
Shallow embedding of the `midware` Python library (modules `midware/core.py`
and `midware/dict.py`) together with proofs about its specification.

Modelling conventions:
* Python exceptions are modelled by the `Except PyErr` monad; `PyErr` lists
  the concrete exception classes the embedded code can raise.
* The one piece of process-wide mutable state (`_VERBOSE_MODE`) and the
  stream of `print` output are gathered in a `World` record that is threaded
  explicitly through every effectful function.
* A Python `dict` is modelled as an association list whose earliest binding
  for a key is the authoritative one; insertion replaces the first binding.
* Nested context values are modelled by the inductive type `Val`
  (`None`, booleans, numbers, strings and string-keyed dictionaries).
* A generator decorated by `midware.core.middleware` is observed by its
  driver through exactly one `next` and one `send`; `TwoPhaseGen` records
  exactly this observable behaviour, with `none` standing for the generator
  raising `StopIteration` instead of yielding.
-/

/-- The Python exception classes that the embedded code can raise. -/
inductive PyErr where
  | stopIteration
  | typeError
  | valueError
  | runtimeError
  | attributeError
deriving DecidableEq, Repr

/-- The process-wide state visible to the library: the module-level
`_VERBOSE_MODE` flag of `midware/core.py` and the lines written to
standard output so far. -/
structure World where
  verboseMode : Bool
  output : List String
deriving DecidableEq, Repr

/-- `midware.core.identity`: `return x`. -/
def identity (x : α) : α := x

/-- `midware.core._print_inwards`: prints `'{}--->'.format(middleware_name)`
when `_VERBOSE_MODE` is on. -/
def print_inwards (middleware_name : String) (w : World) : World :=
  if w.verboseMode then
    { w with output := w.output ++ [middleware_name ++ "--->"] }
  else w

/-- `midware.core._print_outwards`: prints `'<---{}'.format(middleware_name)`
when `_VERBOSE_MODE` is on. -/
def print_outwards (middleware_name : String) (w : World) : World :=
  if w.verboseMode then
    { w with output := w.output ++ ["<---" ++ middleware_name] }
  else w

/-- A heterogeneous sequence of composable functions: the embedding of the
`*funcs` argument of `midware.core.compose`.  Python is dynamically typed,
so consecutive functions may change the type of the value being piped; the
chain records the intermediate types.  The (possibly variadic) argument
tuple of the first function is modelled as one value of type `α`. -/
inductive FnChain : Type → Type → Type 1 where
  | nil : FnChain α α
  | cons : (α → β) → FnChain β γ → FnChain α γ

/-- `midware.core.compose`: with no functions it behaves as `identity`;
otherwise the first function is applied to the original argument and every
later function is applied to its predecessor's return value (the `for f in
rest: ret = f(ret)` loop). -/
def compose : FnChain α β → α → β
  | FnChain.nil, x => identity x
  | FnChain.cons f rest, x => compose rest (f x)

/-- Appends one more function at the tail of a chain (it will run last). -/
def snocChain : FnChain α β → (β → γ) → FnChain α γ
  | FnChain.nil, f => FnChain.cons f FnChain.nil
  | FnChain.cons g rest, f => FnChain.cons g (snocChain rest f)

/-- A homogeneous list of functions seen as a chain, in list order; this is
how `compose(*reversed(middleware_))` receives its arguments in
`midware.core.wrap_and_call`. -/
def chainOfList : List (α → α) → FnChain α α
  | [] => FnChain.nil
  | f :: fs => FnChain.cons f (chainOfList fs)

/-- A handler: a function from a context to a context which may read and
write the process-wide state (the verbose flag, standard output) and may
raise. -/
def HandlerM (α : Type) : Type :=
  α → World → World × Except PyErr α

/-- A middleware unit: a function from a handler to a handler. -/
def MwM (α : Type) : Type :=
  HandlerM α → HandlerM α

/-- The observable behaviour of one instance of a generator decorated by
`midware.core.middleware`.  The driver performs exactly one `next` and, if
that yielded, one `send`:
* `first` is the value produced by `next(g)`; `none` means the generator
  finished without yielding, so `next` raised `StopIteration`;
* `second r` is the value produced by `g.send(r)`; `none` means the
  generator finished without yielding again, so `send` raised
  `StopIteration`.
The user code inside the generator is modelled as pure. -/
structure TwoPhaseGen (α : Type) where
  first : Option α
  second : α → Option α

/-- `midware.core.middleware name` applied to a generator function `g_fn`
(with the extra `*args, **kwargs` already folded into `g_fn`).  The
produced `new_handler` prints the inward marker, instantiates the
generator, drives its before-phase with `next`, invokes the wrapped
handler on the yielded context, drives the after-phase with `send`, prints
the outward marker and returns the last context.  `StopIteration` raised
by `next`/`send`, and any exception raised by the inner handler, propagate
to the caller. -/
def middleware (name : String) (g_fn : α → TwoPhaseGen α) : MwM α :=
  fun handler ctx w =>
    match (g_fn ctx).first with
    | none => (print_inwards name w, Except.error PyErr.stopIteration)
    | some changed_ctx =>
      match handler changed_ctx (print_inwards name w) with
      | (w2, Except.error e) => (w2, Except.error e)
      | (w2, Except.ok new_ctx) =>
        match (g_fn ctx).second new_ctx with
        | none => (w2, Except.error PyErr.stopIteration)
        | some last_ctx => (print_outwards name w2, Except.ok last_ctx)

/-- `midware.core.wrap_and_call`: sets the module-level `_VERBOSE_MODE`
flag to `verbose` (a plain assignment, with no save or restore of the
previous value), then layers `middleware_` left to right around `handler`
via `compose(*reversed(middleware_))` and calls the wrapped handler on
`ctx`. -/
def wrap_and_call (ctx : α) (handler : HandlerM α) (middleware_ : List (MwM α))
    (verbose : Bool) (w : World) : World × Except PyErr α :=
  compose (chainOfList middleware_.reverse) handler ctx { w with verboseMode := verbose }

/-- A handler leaves the process-wide verbose flag as it found it. -/
def PreservesFlag (h : HandlerM α) : Prop :=
  ∀ c w, ((h c w).1).verboseMode = w.verboseMode

/-- A Python value as it occurs in a nested context: `None`, a boolean, a
number, a string, or a string-keyed dictionary (modelled as an association
list in insertion order whose earliest binding for a key is the
authoritative one). -/
inductive Val where
  | vnone : Val
  | vbool : Bool → Val
  | vnat : Nat → Val
  | vstr : String → Val
  | vdict : List (String × Val) → Val

/-- `d[k]` / `k in d` for a Python `dict` modelled as an association list:
the first binding of `k`, if any. -/
def dictLookup {κ ν : Type} [DecidableEq κ] : List (κ × ν) → κ → Option ν
  | [], _ => none
  | (k', v') :: rest, k => if k' = k then some v' else dictLookup rest k

/-- `d[k] = v` for a Python `dict`: replaces the value of the first binding
of `k`, keeping its position (and, as in CPython, the stored key), or
appends a new binding at the end. -/
def dictInsert {κ ν : Type} [DecidableEq κ] : List (κ × ν) → κ → ν → List (κ × ν)
  | [], k, v => [(k, v)]
  | (k', v') :: rest, k, v =>
    if k' = k then (k', v) :: rest else (k', v') :: dictInsert rest k v

/-- `true` exactly when the value is a Python `dict`
(the `type(d_) == dict` check of `midware.core.get_in`). -/
def isDictV : Val → Bool
  | Val.vdict _ => true
  | _ => false

/-- The loop body and final lookup of `midware.core.get_in`, with the path
already split as `k :: rest` (so `k` is the next key and, when `rest` is
empty, the last one).  Every step is guarded by `type(d_) != dict`, and the
final step uses `d_.get(last, default)`, so the walk never raises. -/
def getGo (d : Val) (k : String) (rest : List String) (default : Val) : Val :=
  match rest with
  | [] =>
    match d with
    | Val.vdict es => (dictLookup es k).getD default
    | _ => default
  | k2 :: rest2 =>
    match d with
    | Val.vdict es =>
      match dictLookup es k with
      | some c => getGo c k2 rest2 default
      | none => default
    | _ => default

/-- `midware.core.get_in`.  The unpacking `*ks_, last = ks` raises
`ValueError` on an empty key sequence; for a non-empty one the function
walks the nested structure and returns the found value or `default`. -/
def get_in (d : Val) (ks : List String) (default : Val) : Except PyErr Val :=
  match ks with
  | [] => Except.error PyErr.valueError
  | k :: rest => Except.ok (getGo d k rest default)

/-- The loop body and final assignment of `midware.core.assoc_in` (the
function `midware.dict.assoc_in` is textually identical), with the path
already split as `k :: rest`.

At an intermediate key the Python loop runs `if k not in d_: d_[k] = {}`
then `d_ = d_[k]`; on a `dict` this descends into the existing value or a
freshly created empty `dict`, and the pure recursion re-inserts the updated
child, which reproduces the in-place mutation (an error deeper in the walk
implies every walked key already existed, so the aborted call mutated
nothing).  On a non-`dict` value every continuation raises `TypeError`:
membership itself raises for `None`/`bool`/`int`, and for a `str` both the
item assignment `d_[k] = {}` and the indexing `d_[k]` with a `str` key
raise.  The final assignment `d_[last] = v` likewise raises `TypeError` on
every non-`dict`. -/
def assocGo (d : Val) (k : String) (rest : List String) (v : Val) : Except PyErr Val :=
  match rest with
  | [] =>
    match d with
    | Val.vdict es => Except.ok (Val.vdict (dictInsert es k v))
    | _ => Except.error PyErr.typeError
  | k2 :: rest2 =>
    match d with
    | Val.vdict es =>
      match assocGo ((dictLookup es k).getD (Val.vdict [])) k2 rest2 v with
      | Except.ok newChild => Except.ok (Val.vdict (dictInsert es k newChild))
      | Except.error e => Except.error e
    | _ => Except.error PyErr.typeError

/-- `midware.core.assoc_in` (and the textually identical
`midware.dict.assoc_in`): associates `v` at the key path `ks`, creating
empty `dict`s at missing intermediate keys, and returns the root.  The
unpacking `*ks_, last = ks` raises `ValueError` on an empty path. -/
def assoc_in (d : Val) (ks : List String) (v : Val) : Except PyErr Val :=
  match ks with
  | [] => Except.error PyErr.valueError
  | k :: rest => assocGo d k rest v

/-- The walk over all-but-the-last key of a path reaches, at some
intermediate key that is present, an existing value that is not a `dict`
(the error condition of the spec for `set`: an intermediate existing value
is not a map).  A missing intermediate key is not such a hit: there
`assoc_in` creates a fresh empty `dict` and the rest of the walk only ever
sees fresh `dict`s. -/
def intermNonMap (d : Val) : List String → Bool
  | [] => false
  | [_] => false
  | k :: k2 :: rest =>
    match d with
    | Val.vdict es =>
      match dictLookup es k with
      | some c => !(isDictV c) || intermNonMap c (k2 :: rest)
      | none => false
    | _ => false

/-- The guarded walk of `midware.core.get_in` over all-but-the-last key
gives up early: at some step the current value is not a `dict` or lacks the
next key. -/
def walkFailsEarly (d : Val) : List String → Bool
  | [] => false
  | [_] => false
  | k :: k2 :: rest =>
    match d with
    | Val.vdict es =>
      match dictLookup es k with
      | some c => walkFailsEarly c (k2 :: rest)
      | none => true
    | _ => true

/-- The whole key path resolves in the nested structure: every step finds a
`dict` containing the next key. -/
def hasPath (d : Val) : List String → Bool
  | [] => true
  | k :: rest =>
    match d with
    | Val.vdict es =>
      match dictLookup es k with
      | some c => hasPath c rest
      | none => false
    | _ => false

/-- The walk over all-but-the-last key of a path meets only `dict`s but, at
some step, the `dict` lacks the next key: the one early-return condition of
`midware.dict.get_in` (which, unlike `midware.core.get_in`, has no type
guard for non-`dict` values). -/
def dictWalkMissingKey (d : Val) : List String → Bool
  | [] => false
  | [_] => false
  | k :: k2 :: rest =>
    match d with
    | Val.vdict es =>
      match dictLookup es k with
      | some c => dictWalkMissingKey c (k2 :: rest)
      | none => true
    | _ => false

/-- `p` is a prefix of `l` (over characters). -/
def charsStartWith : List Char → List Char → Bool
  | [], _ => true
  | _ :: _, [] => false
  | a :: as, b :: bs => (a == b) && charsStartWith as bs

/-- `p` occurs contiguously inside `l` (over characters). -/
def charsContain : List Char → List Char → Bool
  | [], p => charsStartWith p []
  | c :: rest, p => charsStartWith p (c :: rest) || charsContain rest p

/-- Python's `needle in hay` for strings: substring containment. -/
def strIn (needle hay : String) : Bool :=
  charsContain hay.toList needle.toList

/-- The loop body and final lookup of `midware.dict.get_in`, with the path
already split as `k :: rest`.  Unlike the `midware.core` version there is
no `type(d_) == dict` guard:
* at an intermediate key, `k not in d_` raises `TypeError` on
  `None`/`bool`/`int`; on a `str` it is substring containment, after which
  `d_[k]` with a `str` key raises `TypeError` (and on a non-substring the
  loop returns `default`);
* at the final key, `d_.get(last, default)` raises `AttributeError` on
  every non-`dict` (none of `None`, `bool`, `int`, `str` has `get`). -/
def dictGetGo (d : Val) (k : String) (rest : List String) (default : Val) :
    Except PyErr Val :=
  match rest with
  | [] =>
    match d with
    | Val.vdict es => Except.ok ((dictLookup es k).getD default)
    | _ => Except.error PyErr.attributeError
  | k2 :: rest2 =>
    match d with
    | Val.vdict es =>
      match dictLookup es k with
      | some c => dictGetGo c k2 rest2 default
      | none => Except.ok default
    | Val.vstr s =>
      if strIn k s then Except.error PyErr.typeError else Except.ok default
    | _ => Except.error PyErr.typeError

/-- `midware.dict.get_in`: like `midware.core.get_in` but without the type
guards, so the walk can raise on non-`dict` intermediate or final values.
The unpacking `*ks_, last = ks` raises `ValueError` on an empty path. -/
def dict_get_in (d : Val) (ks : List String) (default : Val) : Except PyErr Val :=
  match ks with
  | [] => Except.error PyErr.valueError
  | k :: rest => dictGetGo d k rest default

/-- A Python context manager that does not suppress exceptions: `enter`
models `__enter__` (it may touch the process-wide state and produces the
bound value) and `exit` models `__exit__` returning a falsy value (so any
in-flight exception is re-raised after it runs). -/
structure CM where
  enter : World → World × Val
  exit : World → World

/-- The `ctx_kwargs` construction of `midware.core.mw_from_cm`: iterating
`ctx_args` yields `(k, ks_)` pairs (in the source `ctx_args` is a `dict`
iterated directly, so its keys must be such pairs) and each `ks_` is read
from the context with `get_in` (default `None`), whose `ValueError` on an
empty path would propagate. -/
def buildKwargs (ctx : Val) : List (String × List String) →
    Except PyErr (List (String × Val))
  | [] => Except.ok []
  | (k, ks_) :: rest =>
    match get_in ctx ks_ Val.vnone with
    | Except.error e => Except.error e
    | Except.ok v =>
      match buildKwargs ctx rest with
      | Except.error e => Except.error e
      | Except.ok kvs => Except.ok ((k, v) :: kvs)

/-- The body of the `with` statement in `midware.core.mw_from_cm`: when
`ks` is truthy (not `None` and not empty) the bound value `v` is stored
into the context at `ks` with `assoc_in` (whose `TypeError` would
propagate), then the wrapped handler runs on the (updated) context. -/
def cm_body (ks : Option (List String)) (handler : HandlerM Val) (ctx : Val)
    (v : Val) (w : World) : World × Except PyErr Val :=
  match ks with
  | some (k :: rest) =>
    match assoc_in ctx (k :: rest) v with
    | Except.error e => (w, Except.error e)
    | Except.ok ctx2 => handler ctx2 w
  | _ => handler ctx w

/-- `midware.core.mw_from_cm`: builds a middleware unit from a context
manager constructor.  The produced handler prints the inward marker, reads
the `ctx_args` keyword arguments from the context, enters the context
manager, runs the `with` body (store the bound value at `ks` if requested,
then call the wrapped handler), and on every exit path — normal completion
or an exception from the body — runs `__exit__`; only on normal completion
does it print the outward marker and return the new context.  The keyword
arguments fixed by `**kwargs` at construction time are folded into
`cm_constructor`. -/
def mw_from_cm (name : String) (cm_constructor : List (String × Val) → CM)
    (ks : Option (List String)) (ctx_args : List (String × List String)) : MwM Val :=
  fun handler ctx w =>
    match buildKwargs ctx ctx_args with
    | Except.error e => (print_inwards name w, Except.error e)
    | Except.ok kw =>
      match cm_body ks handler ctx ((cm_constructor kw).enter (print_inwards name w)).2
          ((cm_constructor kw).enter (print_inwards name w)).1 with
      | (w3, Except.error e) => ((cm_constructor kw).exit w3, Except.error e)
      | (w3, Except.ok new_ctx) =>
        (print_outwards name ((cm_constructor kw).exit w3), Except.ok new_ctx)

/-- `midware.dict.assoc` together with the generator `midware.dict.pairs`
it iterates.  `pairs` binds the *same* iterator twice and runs
`while True: yield (next(fst_iter), next(snd_iter))`; when the arguments
are exhausted (or one value is left over) the inner `next` raises
`StopIteration` inside a generator, which PEP 479 (Python >= 3.7) replaces
with `RuntimeError`, and that escapes the `for k, v in pairs(kvs)` loop of
`assoc`.  The first component is the state of the (mutated) dictionary when
the loop stops; the trailing `return d` of the source is unreachable, so
the call always raises. -/
def assoc {α : Type} [DecidableEq α] (d : List (α × α)) :
    List α → List (α × α) × Except PyErr (List (α × α))
  | [] => (d, Except.error PyErr.runtimeError)
  | [_] => (d, Except.error PyErr.runtimeError)
  | k :: v :: rest => assoc (dictInsert d k v) rest

/-- A handler that behaves like `midware.core.identity`: it returns the
context unchanged, touches no process-wide state and never raises. -/
def idHandler {α : Type} : HandlerM α := fun c w => (w, Except.ok c)

/-- A pure two-phase generator function whose before-phase appends
`tag ++ "_before"` and whose after-phase appends `tag ++ "_after"` to a
context that is a log of events. -/
def logGen (tag : String) (c : List String) : TwoPhaseGen (List String) :=
  ⟨some (c ++ [tag ++ "_before"]), fun r => some (r ++ [tag ++ "_after"])⟩

/-- The middleware unit named `A` built from `logGen "A"`. -/
def mwA : MwM (List String) := middleware "A" (logGen "A")

/-- The middleware unit named `B` built from `logGen "B"`. -/
def mwB : MwM (List String) := middleware "B" (logGen "B")

/-- A terminal handler that records its invocation in the event-log
context. -/
def logHandler : HandlerM (List String) := fun c w => (w, Except.ok (c ++ ["H"]))

/-- A generator function that finishes without ever yielding: its `next`
raises `StopIteration` at once. -/
def genNone : Val → TwoPhaseGen Val := fun _ => ⟨none, fun _ => none⟩

/-- A generator function that yields its context once and then finishes,
so the driver's `send` raises `StopIteration`. -/
def genOnce : Val → TwoPhaseGen Val := fun c => ⟨some c, fun _ => none⟩

/-- A well-formed two-phase generator function that yields its context and
then yields the inner result unchanged. -/
def genId : Val → TwoPhaseGen Val := fun c => ⟨some c, fun r => some r⟩

/-- A context-manager constructor whose release phase leaves an observable
`"released"` line in the output. -/
def cmcRelease : List (String × Val) → CM :=
  fun _ => ⟨fun w => (w, Val.vnone), fun w => ⟨w.verboseMode, w.output ++ ["released"]⟩⟩

/-- An inner handler that always raises `ValueError`. -/
def failHandler : HandlerM Val := fun _ w => (w, Except.error PyErr.valueError)

/-! ### Helper lemmas -/

theorem dictLookup_dictInsert_self {κ ν : Type} [DecidableEq κ]
    (es : List (κ × ν)) (k : κ) (v : ν) :
    dictLookup (dictInsert es k v) k = some v := by
  induction es with
  | nil => simp [dictInsert, dictLookup]
  | cons p rest ih =>
    obtain ⟨k', v'⟩ := p
    by_cases h : k' = k
    · simp [dictInsert, dictLookup, h]
    · simp [dictInsert, dictLookup, h, ih]

theorem compose_chainOfList {β : Type} (l : List (β → β)) (x : β) :
    compose (chainOfList l) x = l.foldl (fun acc f => f acc) x := by
  induction l generalizing x with
  | nil => simp [chainOfList, compose, identity]
  | cons f fs ih => simp [chainOfList, compose, List.foldl, ih]

theorem wrap_and_call_eq_foldr {α : Type} (ctx : α) (handler : HandlerM α)
    (mws : List (MwM α)) (verbose : Bool) (w : World) :
    wrap_and_call ctx handler mws verbose w =
      (mws.foldr (fun m h => m h) handler) ctx { w with verboseMode := verbose } := by
  unfold wrap_and_call
  rw [compose_chainOfList, List.foldl_reverse]
  rfl

theorem print_inwards_flag (n : String) (w : World) :
    (print_inwards n w).verboseMode = w.verboseMode := by
  unfold print_inwards
  split <;> rfl

theorem print_outwards_flag (n : String) (w : World) :
    (print_outwards n w).verboseMode = w.verboseMode := by
  unfold print_outwards
  split <;> rfl

theorem middleware_preservesFlag {α : Type} (name : String)
    (g_fn : α → TwoPhaseGen α) (h : HandlerM α) (hp : PreservesFlag h) :
    PreservesFlag (middleware name g_fn h) := by
  intro c w
  cases hf : (g_fn c).first with
  | none => simp [middleware, hf, print_inwards_flag]
  | some cc =>
    have hh := hp cc (print_inwards name w)
    revert hh
    simp only [middleware, hf]
    generalize h cc (print_inwards name w) = p
    obtain ⟨w2, r⟩ := p
    intro hh
    simp only [print_inwards_flag] at hh
    cases r with
    | error e => simpa using hh
    | ok nc =>
      cases hs : (g_fn c).second nc with
      | none => simpa [hs] using hh
      | some lc => simpa [hs, print_outwards_flag] using hh

theorem foldr_preservesFlag {α : Type} (mws : List (MwM α)) (handler : HandlerM α)
    (hh : PreservesFlag handler)
    (hm : ∀ m ∈ mws, ∀ h, PreservesFlag h → PreservesFlag (m h)) :
    PreservesFlag (mws.foldr (fun m h => m h) handler) := by
  induction mws with
  | nil => simpa using hh
  | cons m rest ih =>
    have hr := ih (fun m' hm' => hm m' (List.mem_cons_of_mem m hm'))
    exact hm m (List.mem_cons_self m rest) _ hr

theorem assocGo_getGo (rest : List String) :
    ∀ (d : Val) (k : String) (v dflt d' : Val),
      assocGo d k rest v = Except.ok d' → getGo d' k rest dflt = v := by
  induction rest with
  | nil =>
    intro d k v dflt d' h
    cases d with
    | vdict es =>
      simp only [assocGo, Except.ok.injEq] at h
      subst h
      simp [getGo, dictLookup_dictInsert_self]
    | vnone => exact absurd h (by simp [assocGo])
    | vbool b => exact absurd h (by simp [assocGo])
    | vnat n => exact absurd h (by simp [assocGo])
    | vstr s => exact absurd h (by simp [assocGo])
  | cons k2 rest2 ih =>
    intro d k v dflt d' h
    cases d with
    | vdict es =>
      simp only [assocGo] at h
      cases hc : assocGo ((dictLookup es k).getD (Val.vdict [])) k2 rest2 v with
      | error e => rw [hc] at h; exact absurd h (by simp)
      | ok newChild =>
        rw [hc] at h
        simp only [Except.ok.injEq] at h
        subst h
        simp only [getGo, dictLookup_dictInsert_self]
        exact ih _ _ _ _ _ hc
    | vnone => exact absurd h (by simp [assocGo])
    | vbool b => exact absurd h (by simp [assocGo])
    | vnat n => exact absurd h (by simp [assocGo])
    | vstr s => exact absurd h (by simp [assocGo])

theorem assocGo_typeError (rest : List String) :
    ∀ (d : Val) (k : String) (v : Val),
      (isDictV d = false ∨ intermNonMap d (k :: rest) = true) →
      assocGo d k rest v = Except.error PyErr.typeError := by
  induction rest with
  | nil =>
    intro d k v h
    cases d with
    | vdict es => simp [isDictV, intermNonMap] at h
    | vnone => simp [assocGo]
    | vbool b => simp [assocGo]
    | vnat n => simp [assocGo]
    | vstr s => simp [assocGo]
  | cons k2 rest2 ih =>
    intro d k v h
    cases d with
    | vdict es =>
      rcases h with h | h
      · simp [isDictV] at h
      · simp only [intermNonMap] at h
        cases hl : dictLookup es k with
        | none => rw [hl] at h; simp at h
        | some c =>
          rw [hl] at h
          simp only [Bool.or_eq_true, Bool.not_eq_eq_eq_not, Bool.not_true] at h
          have hrec : assocGo c k2 rest2 v = Except.error PyErr.typeError := by
            rcases h with h | h
            · exact ih c k2 v (Or.inl h)
            · exact ih c k2 v (Or.inr h)
          simp only [assocGo, hl, Option.getD_some, hrec]
    | vnone => simp [assocGo]
    | vbool b => simp [assocGo]
    | vnat n => simp [assocGo]
    | vstr s => simp [assocGo]

theorem getGo_walkFailsEarly (rest : List String) :
    ∀ (d : Val) (k : String) (dflt : Val),
      walkFailsEarly d (k :: rest) = true → getGo d k rest dflt = dflt := by
  induction rest with
  | nil =>
    intro d k dflt h
    simp [walkFailsEarly] at h
  | cons k2 rest2 ih =>
    intro d k dflt h
    cases d with
    | vdict es =>
      simp only [walkFailsEarly] at h
      cases hl : dictLookup es k with
      | none => simp [getGo, hl]
      | some c =>
        rw [hl] at h
        simp only [getGo, hl]
        exact ih c k2 dflt h
    | vnone => simp [getGo]
    | vbool b => simp [getGo]
    | vnat n => simp [getGo]
    | vstr s => simp [getGo]

theorem getGo_noPath (rest : List String) :
    ∀ (d : Val) (k : String) (dflt : Val),
      hasPath d (k :: rest) = false → getGo d k rest dflt = dflt := by
  induction rest with
  | nil =>
    intro d k dflt h
    cases d with
    | vdict es =>
      simp only [hasPath] at h
      cases hl : dictLookup es k with
      | none => simp [getGo, hl]
      | some c => rw [hl] at h; simp [hasPath] at h
    | vnone => simp [getGo]
    | vbool b => simp [getGo]
    | vnat n => simp [getGo]
    | vstr s => simp [getGo]
  | cons k2 rest2 ih =>
    intro d k dflt h
    cases d with
    | vdict es =>
      simp only [hasPath] at h
      cases hl : dictLookup es k with
      | none => simp [getGo, hl]
      | some c =>
        rw [hl] at h
        simp only [getGo, hl]
        exact ih c k2 dflt h
    | vnone => simp [getGo]
    | vbool b => simp [getGo]
    | vnat n => simp [getGo]
    | vstr s => simp [getGo]

theorem dictGetGo_missing (rest : List String) :
    ∀ (d : Val) (k : String) (dflt : Val),
      dictWalkMissingKey d (k :: rest) = true →
      dictGetGo d k rest dflt = Except.ok dflt := by
  induction rest with
  | nil =>
    intro d k dflt h
    simp [dictWalkMissingKey] at h
  | cons k2 rest2 ih =>
    intro d k dflt h
    cases d with
    | vdict es =>
      simp only [dictWalkMissingKey] at h
      cases hl : dictLookup es k with
      | none => simp [dictGetGo, hl]
      | some c =>
        rw [hl] at h
        simp only [dictGetGo, hl]
        exact ih c k2 dflt h
    | vnone => simp [dictWalkMissingKey] at h
    | vbool b => simp [dictWalkMissingKey] at h
    | vnat n => simp [dictWalkMissingKey] at h
    | vstr s => simp [dictWalkMissingKey] at h

theorem assoc_raises_aux {α : Type} [DecidableEq α] :
    ∀ (kvs : List α) (d : List (α × α)),
      ∃ d', assoc d kvs = (d', Except.error PyErr.runtimeError)
  | [], d => ⟨d, rfl⟩
  | [_], d => ⟨d, rfl⟩
  | k :: v :: rest, d => assoc_raises_aux rest (dictInsert d k v)

/-! ### Claim theorems -/

/-- C1: `wrap_and_call(C, H, m1, ..., mn)` executes the chain with the
first-listed middleware outermost and the last-listed innermost: the result
equals `m1(m2(...mn(H)...))(C)` (with the verbose flag set first, as
`wrap_and_call` always does), and for the list `[A, B]` of two-phase units
around a handler `H`, A's before-phase runs first, then B's before-phase,
then `H` exactly once, then B's after-phase, then A's after-phase — as both
the event log of the context and the verbose trace show. -/
theorem wrap_and_call_order :
    (∀ (α : Type) (ctx : α) (handler : HandlerM α) (mws : List (MwM α))
       (verbose : Bool) (w : World),
       wrap_and_call ctx handler mws verbose w =
         (mws.foldr (fun m h => m h) handler) ctx { w with verboseMode := verbose }) ∧
    (wrap_and_call ([] : List String) logHandler [mwA, mwB] true ⟨false, []⟩ =
       (⟨true, ["A--->", "B--->", "<---B", "<---A"]⟩,
        Except.ok ["A_before", "B_before", "H", "B_after", "A_after"])) :=
  ⟨fun _ ctx handler mws verbose w => wrap_and_call_eq_foldr ctx handler mws verbose w,
   rfl⟩

/-- C2: `compose(f1, ..., fn)` pipes left to right — appending one more
function to the chain applies it last, to the composite's result — and
`compose()` with no functions is the identity. -/
theorem compose_pipeline :
    (∀ (α : Type) (x : α), compose FnChain.nil x = x) ∧
    (∀ (α β γ : Type) (c : FnChain α β) (f : β → γ) (x : α),
       compose (snocChain c f) x = f (compose c x)) := by
  constructor
  · intro α x
    rfl
  · intro α β γ c
    induction c with
    | nil => intro f x; rfl
    | cons g rest ih => intro f x; exact ih f (g x)

/-- C3: a unit built by `middleware` fails with the `StopIteration` that
realizes the spec's MalformedMiddleware error whenever the underlying
generator does not suspend exactly once before being resumed: if it never
yields (`next` raises), or if it finishes without yielding again after
being resumed (`send` raises while the inner handler returned normally). -/
theorem middleware_single_suspension :
    ∀ (α : Type) (name : String) (g_fn : α → TwoPhaseGen α) (handler : HandlerM α)
      (ctx : α) (w : World),
      ((g_fn ctx).first = none →
        (middleware name g_fn handler ctx w).2 = Except.error PyErr.stopIteration) ∧
      (∀ (c : α) (w2 : World) (r : α),
        (g_fn ctx).first = some c →
        handler c (print_inwards name w) = (w2, Except.ok r) →
        (g_fn ctx).second r = none →
        (middleware name g_fn handler ctx w).2 = Except.error PyErr.stopIteration) := by
  intro α name g_fn handler ctx w
  constructor
  · intro h1
    simp only [middleware, h1]
  · intro c w2 r h1 h2 h3
    simp only [middleware, h1, h2, h3]

/-- C3 witness: a generator that never yields, and one that yields only
once, both make the unit fail with `StopIteration`. -/
theorem middleware_single_suspension_witness :
    (genNone Val.vnone).first = none ∧
    (middleware "m1" genNone idHandler Val.vnone ⟨false, []⟩).2 =
      Except.error PyErr.stopIteration ∧
    (middleware "m2" genOnce idHandler Val.vnone ⟨false, []⟩).2 =
      Except.error PyErr.stopIteration :=
  ⟨rfl,
   (middleware_single_suspension Val "m1" genNone idHandler Val.vnone ⟨false, []⟩).1 rfl,
   (middleware_single_suspension Val "m2" genOnce idHandler Val.vnone ⟨false, []⟩).2
     Val.vnone ⟨false, []⟩ Val.vnone rfl rfl rfl⟩

/-- C4 counterexample: `wrap_and_call` run with `verbose=True` (empty
chain, pure handler, flag initially disabled) leaves the process-wide
verbose flag enabled after it returns, so the flag is not back in its
disabled state. -/
theorem verbose_flag_not_restored :
    ((wrap_and_call Val.vnone idHandler [] true ⟨false, []⟩).1).verboseMode ≠ false := by
  decide

/-- C4 amended: `wrap_and_call` sets the process-wide flag to the requested
`verbose` value for the duration of the run and performs no restoration
afterwards: whenever the handler and the middleware units themselves leave
the flag alone, the flag after the run (whether the chain returned or
raised) equals the `verbose` argument — not the flag's previous state. -/
theorem wrap_and_call_sets_flag :
    ∀ (α : Type) (ctx : α) (handler : HandlerM α) (mws : List (MwM α))
      (verbose : Bool) (w : World),
      PreservesFlag handler →
      (∀ m ∈ mws, ∀ h, PreservesFlag h → PreservesFlag (m h)) →
      ((wrap_and_call ctx handler mws verbose w).1).verboseMode = verbose := by
  intro α ctx handler mws verbose w hh hm
  rw [wrap_and_call_eq_foldr]
  rw [foldr_preservesFlag mws handler hh hm ctx { w with verboseMode := verbose }]

/-- C4 witness: a run with one generator-built unit and a pure handler,
with the flag initially disabled and `verbose=True`, ends with the flag
enabled. -/
theorem wrap_and_call_sets_flag_witness :
    ((wrap_and_call Val.vnone idHandler [middleware "A" genId] true ⟨false, []⟩).1).verboseMode
      = true :=
  wrap_and_call_sets_flag Val Val.vnone idHandler [middleware "A" genId] true ⟨false, []⟩
    (fun _ _ => rfl)
    (by
      intro m hm h hp
      rw [List.mem_singleton] at hm
      subst hm
      exact middleware_preservesFlag "A" genId h hp)

/-- C5: for a unit built by `mw_from_cm`, whenever the body of the `with`
statement — in particular the inner handler, called after the resource was
acquired — raises, the context manager's exit (the release phase) still
runs on the body's final state, and the body's failure propagates unchanged
to the unit's caller. -/
theorem mw_from_cm_releases_on_failure :
    ∀ (name : String) (cmc : List (String × Val) → CM) (ks : Option (List String))
      (ctx_args : List (String × List String)) (handler : HandlerM Val) (ctx : Val)
      (w : World) (kw : List (String × Val)) (w3 : World) (e : PyErr),
      buildKwargs ctx ctx_args = Except.ok kw →
      cm_body ks handler ctx ((cmc kw).enter (print_inwards name w)).2
          ((cmc kw).enter (print_inwards name w)).1 = (w3, Except.error e) →
      mw_from_cm name cmc ks ctx_args handler ctx w = ((cmc kw).exit w3, Except.error e) := by
  intro name cmc ks ctx_args handler ctx w kw w3 e h1 h2
  simp only [mw_from_cm, h1, h2]

/-- C5 witness: a context manager whose release appends `"released"` to the
output, around a handler that raises `ValueError`: the release line is in
the final output and the `ValueError` propagates. -/
theorem mw_from_cm_releases_on_failure_witness :
    mw_from_cm "res" cmcRelease none [] failHandler Val.vnone ⟨false, []⟩ =
      (⟨false, ["released"]⟩, Except.error PyErr.valueError) :=
  mw_from_cm_releases_on_failure "res" cmcRelease none [] failHandler Val.vnone
    ⟨false, []⟩ [] ⟨false, []⟩ PyErr.valueError rfl rfl

/-- C6: whenever `assoc_in` succeeds, reading the same non-empty path back
with `get_in` returns the written value, whatever the default. -/
theorem assoc_in_get_in_roundtrip :
    ∀ (d : Val) (ks : List String) (v dflt d' : Val),
      assoc_in d ks v = Except.ok d' → get_in d' ks dflt = Except.ok v := by
  intro d ks v dflt d' h
  cases ks with
  | nil => exact Except.noConfusion h
  | cons k rest => exact congrArg Except.ok (assocGo_getGo rest d k v dflt d' h)

/-- C6 witness: writing `7` at `["a", "b"]` into the empty map and reading
it back. -/
theorem assoc_in_get_in_roundtrip_witness :
    assoc_in (Val.vdict []) ["a", "b"] (Val.vnat 7) =
      Except.ok (Val.vdict [("a", Val.vdict [("b", Val.vnat 7)])]) ∧
    get_in (Val.vdict [("a", Val.vdict [("b", Val.vnat 7)])]) ["a", "b"] Val.vnone =
      Except.ok (Val.vnat 7) :=
  ⟨rfl,
   assoc_in_get_in_roundtrip (Val.vdict []) ["a", "b"] (Val.vnat 7) Val.vnone
     (Val.vdict [("a", Val.vdict [("b", Val.vnat 7)])]) rfl⟩

/-- C7: `assoc_in` on a non-map root, or through an intermediate key whose
existing value is not a map, fails with the `TypeError` that realizes the
spec's TypeMismatch error — it returns no structure, so it never silently
overwrites the non-map value with a nested map. -/
theorem assoc_in_type_error :
    ∀ (d : Val) (ks : List String) (v : Val), ks ≠ [] →
      (isDictV d = false ∨ intermNonMap d ks = true) →
      assoc_in d ks v = Except.error PyErr.typeError := by
  intro d ks v hne h
  cases ks with
  | nil => exact absurd rfl hne
  | cons k rest => exact assocGo_typeError rest d k v h

/-- C7 witness: a number as root, and a map whose intermediate value is a
number, both make `assoc_in` fail with `TypeError`. -/
theorem assoc_in_type_error_witness :
    assoc_in (Val.vnat 0) ["a"] Val.vnone = Except.error PyErr.typeError ∧
    assoc_in (Val.vdict [("a", Val.vnat 5)]) ["a", "b"] Val.vnone =
      Except.error PyErr.typeError :=
  ⟨assoc_in_type_error (Val.vnat 0) ["a"] Val.vnone (by decide) (Or.inl rfl),
   assoc_in_type_error (Val.vdict [("a", Val.vnat 5)]) ["a", "b"] Val.vnone (by decide)
     (Or.inr rfl)⟩

/-- C8 counterexample: the claim covers `midware.dict.get_in` too (it cites
it as a source), but on the nested map `{'a': 5}` with path `['a', 'b']` —
where the walk's step value `5` is not a map — `midware.dict.get_in` raises
`AttributeError` instead of returning the default `None`. -/
theorem dict_get_in_raises_on_nonmap :
    dict_get_in (Val.vdict [("a", Val.vnat 5)]) ["a", "b"] Val.vnone =
      Except.error PyErr.attributeError ∧
    dict_get_in (Val.vdict [("a", Val.vnat 5)]) ["a", "b"] Val.vnone ≠
      Except.ok Val.vnone := by
  constructor
  · rfl
  · intro h
    exact Except.noConfusion h

/-- C8 amended: for `midware.core.get_in` the claim holds as stated: if the
guarded walk over the path's proper prefix meets a non-map value or a
missing key, or more generally whenever the path is absent, the default is
returned (and the pure embedding reflects that the source performs no
writes).  `midware.dict.get_in` returns the default only when the walked
intermediate values are all maps and some step merely lacks the next key;
on a non-map intermediate it raises instead. -/
theorem get_in_default_on_missing :
    (∀ (d : Val) (ks : List String) (dflt : Val),
       walkFailsEarly d ks = true → get_in d ks dflt = Except.ok dflt) ∧
    (∀ (d : Val) (ks : List String) (dflt : Val),
       ks ≠ [] → hasPath d ks = false → get_in d ks dflt = Except.ok dflt) ∧
    (∀ (d : Val) (ks : List String) (dflt : Val),
       dictWalkMissingKey d ks = true → dict_get_in d ks dflt = Except.ok dflt) := by
  refine ⟨?_, ?_, ?_⟩
  · intro d ks dflt h
    cases ks with
    | nil => simp [walkFailsEarly] at h
    | cons k rest => exact congrArg Except.ok (getGo_walkFailsEarly rest d k dflt h)
  · intro d ks dflt hne h
    cases ks with
    | nil => exact absurd rfl hne
    | cons k rest => exact congrArg Except.ok (getGo_noPath rest d k dflt h)
  · intro d ks dflt h
    cases ks with
    | nil => simp [dictWalkMissingKey] at h
    | cons k rest => exact dictGetGo_missing rest d k dflt h

/-- C8 witness: three concrete reads that return the default `None`: a
`core.get_in` walk through a non-map value, a `core.get_in` read of an
absent path, and a `dict.get_in` walk stopping at a missing key. -/
theorem get_in_default_on_missing_witness :
    get_in (Val.vdict [("a", Val.vnat 5)]) ["a", "b", "c"] Val.vnone =
      Except.ok Val.vnone ∧
    get_in (Val.vdict [("a", Val.vnat 5)]) ["b", "c"] Val.vnone =
      Except.ok Val.vnone ∧
    dict_get_in (Val.vdict [("a", Val.vnat 5)]) ["b", "c"] Val.vnone =
      Except.ok Val.vnone :=
  ⟨get_in_default_on_missing.1 (Val.vdict [("a", Val.vnat 5)]) ["a", "b", "c"]
     Val.vnone rfl,
   get_in_default_on_missing.2.1 (Val.vdict [("a", Val.vnat 5)]) ["b", "c"] Val.vnone
     (by decide) rfl,
   get_in_default_on_missing.2.2 (Val.vdict [("a", Val.vnat 5)]) ["b", "c"] Val.vnone
     rfl⟩

/-- C9: `midware.core.get_in` is total at its public interface: for every
root value, even a non-dict, and every non-empty key sequence, it returns
some value (the found one or the default) and never raises. -/
theorem get_in_total :
    ∀ (d : Val) (ks : List String) (dflt : Val), ks ≠ [] →
      ∃ v, get_in d ks dflt = Except.ok v := by
  intro d ks dflt h
  cases ks with
  | nil => exact absurd rfl h
  | cons k rest => exact ⟨getGo d k rest dflt, rfl⟩

/-- C9 witness: reading `["a"]` from the non-dict root `None` returns a
value without raising. -/
theorem get_in_total_witness :
    (["a"] : List String) ≠ [] ∧
    ∃ v, get_in Val.vnone ["a"] Val.vnone = Except.ok v :=
  ⟨by decide, get_in_total Val.vnone ["a"] Val.vnone (by decide)⟩

/-- C10: evaluating `midware.dict.assoc` at the failing input
`assoc({}, 'a', 'x')`: the pair is stored, but the call then raises
`RuntimeError` (PEP 479 converts the `StopIteration` that `pairs` raises
internally on exhaustion) instead of returning the dict — and indeed every
call of `assoc` ends this way, so it never terminates normally. -/
theorem assoc_always_raises :
    assoc ([] : List (String × String)) ["a", "x"] =
      ([("a", "x")], Except.error PyErr.runtimeError) ∧
    ∀ (d : List (String × String)) (kvs : List String),
      ∃ d', assoc d kvs = (d', Except.error PyErr.runtimeError) :=
  ⟨rfl, fun d kvs => assoc_raises_aux kvs d⟩
